import Mathlib

/-!
Verification of the file-integrity reporting tool (`streamlit_app1.py`).

The tool's core is two functions:

* `compute_checksums` — the fingerprint Generator: map a list of uploaded
  files to a table of `(filename, sha256)` records;
* `compare_checksums` — the Reconciler: outer-join a baseline table with a
  freshly computed table on `filename` and classify every merged row as
  `unchanged`, `modified`, `new` or `missing`;

plus the glue in `main` that validates an externally supplied baseline CSV
(schema check for the `filename` and `sha256` columns) before comparing, and
the CSV interchange (`DataFrame.to_csv` / `pd.read_csv`).

This file shallowly embeds those functions.  `hashlib.sha256(...).hexdigest()`
is embedded as a full FIPS 180-4 SHA-256 over byte lists (`sha256hex`), so the
well-known empty-input digest is checked by evaluation.  Pandas DataFrames are
embedded as a column list plus association-list rows whose cells are
`Option String` (`none` is pandas' missing value, NaN — `pd.isna` is truth of
`= none`).  `pd.merge(..., on="filename", how="outer")` is embedded at the
schemas this program actually feeds it (both operands carrying `filename` and
`sha256` columns, so the overlapping `sha256` column is suffixed to
`sha256_baseline` / `sha256_new`); row order of the join is modelled as
left-table order followed by unmatched right rows, and no theorem below
depends on that order.  `pd.read_csv` is embedded with CSV tokenisation
(quoting, doubled quotes) and default NA-token filtering; pandas' numeric
dtype inference for all-numeric columns is not modelled, and theorems about
parsed data carry hypotheses keeping every relevant field outside both the
NA-token list and numeric-looking syntax.
-/

namespace FileIntegrity

/-! ## SHA-256 (embedding of `hashlib.sha256(data).hexdigest()`) -/

/-- Reduce a natural number to a 32-bit word. -/
def w32 (n : Nat) : Nat := n % 4294967296

/-- Right-rotate a 32-bit word by `n` bits (arithmetic form: the shifted-out
low bits reappear on top). -/
def rotr (n x : Nat) : Nat := x / 2 ^ n + x % 2 ^ n * 2 ^ (32 - n)

/-- Bitwise complement of a 32-bit word. -/
def not32 (x : Nat) : Nat := 4294967295 - x

/-- SHA-256 `Ch(e,f,g)`. -/
def ch (e f g : Nat) : Nat := (e &&& f) ^^^ (not32 e &&& g)

/-- SHA-256 `Maj(a,b,c)`. -/
def maj (a b c : Nat) : Nat := (a &&& b) ^^^ (a &&& c) ^^^ (b &&& c)

/-- SHA-256 big sigma 0. -/
def bigSig0 (x : Nat) : Nat := rotr 2 x ^^^ rotr 13 x ^^^ rotr 22 x

/-- SHA-256 big sigma 1. -/
def bigSig1 (x : Nat) : Nat := rotr 6 x ^^^ rotr 11 x ^^^ rotr 25 x

/-- SHA-256 small sigma 0. -/
def smallSig0 (x : Nat) : Nat := rotr 7 x ^^^ rotr 18 x ^^^ x / 2 ^ 3

/-- SHA-256 small sigma 1. -/
def smallSig1 (x : Nat) : Nat := rotr 17 x ^^^ rotr 19 x ^^^ x / 2 ^ 10

/-- The 64 SHA-256 round constants (FIPS 180-4: the first 32 bits of the
fractional parts of the cube roots of the first 64 primes), in decimal;
the empty-input digest check below validates the whole table against the
published test value. -/
def K : List Nat :=
  [1116352408, 1899447441, 3049323471, 3921009573, 961987163,
   1508970993, 2453635748, 2870763221, 3624381080, 310598401,
   607225278, 1426881987, 1925078388, 2162078206, 2614888103,
   3248222580, 3835390401, 4022224774, 264347078, 604807628,
   770255983, 1249150122, 1555081692, 1996064986, 2554220882,
   2821834349, 2952996808, 3210313671, 3336571891, 3584528711,
   113926993, 338241895, 666307205, 773529912, 1294757372,
   1396182291, 1695183700, 1986661051, 2177026350, 2456956037,
   2730485921, 2820302411, 3259730800, 3345764771, 3516065817,
   3600352804, 4094571909, 275423344, 430227734, 506948616,
   659060556, 883997877, 958139571, 1322822218, 1537002063,
   1747873779, 1955562222, 2024104815, 2227730452, 2361852424,
   2428436474, 2756734187, 3204031479, 3329325298]

/-- The eight 32-bit words of a SHA-256 state. -/
structure Hash8 where
  a : Nat
  b : Nat
  c : Nat
  d : Nat
  e : Nat
  f : Nat
  g : Nat
  h : Nat
deriving DecidableEq, Repr

/-- SHA-256 initial state (FIPS 180-4: the first 32 bits of the
fractional parts of the square roots of the first 8 primes), in
decimal. -/
def H0 : Hash8 :=
  ⟨1779033703, 3144134277, 1013904242, 2773480762,
   1359893119, 2600822924, 528734635, 1541459225⟩

/-- Next word of the message schedule, from the words produced so far. -/
def schedStep (w : List Nat) : Nat :=
  w32 (smallSig1 (w.getD (w.length - 2) 0) + w.getD (w.length - 7) 0 +
       smallSig0 (w.getD (w.length - 15) 0) + w.getD (w.length - 16) 0)

/-- Extend the 16 block words by `n` further schedule words. -/
def extendW : Nat → List Nat → List Nat
  | 0, w => w
  | n + 1, w => extendW n (w ++ [schedStep w])

/-- One SHA-256 round: rotate the working state under constant/word `kw`. -/
def roundStep (st : Hash8) (kw : Nat × Nat) : Hash8 :=
  let t1 := w32 (st.h + bigSig1 st.e + ch st.e st.f st.g + kw.1 + kw.2)
  let t2 := w32 (bigSig0 st.a + maj st.a st.b st.c)
  ⟨w32 (t1 + t2), st.a, st.b, st.c, w32 (st.d + t1), st.e, st.f, st.g⟩

/-- Compress one 16-word block into the running state. -/
def compress (H : Hash8) (block : List Nat) : Hash8 :=
  let ws := extendW 48 block
  let st := (K.zip ws).foldl roundStep H
  ⟨w32 (H.a + st.a), w32 (H.b + st.b), w32 (H.c + st.c), w32 (H.d + st.d),
   w32 (H.e + st.e), w32 (H.f + st.f), w32 (H.g + st.g), w32 (H.h + st.h)⟩

/-- Big-endian bytes (8 of them) of the 64-bit message length in bits. -/
def lenBytes (len : Nat) : List Nat :=
  let L := len * 8
  [L / 2 ^ 56 % 256, L / 2 ^ 48 % 256, L / 2 ^ 40 % 256, L / 2 ^ 32 % 256,
   L / 2 ^ 24 % 256, L / 2 ^ 16 % 256, L / 2 ^ 8 % 256, L % 256]

/-- FIPS 180-4 padding: append `0x80`, zeros to 56 mod 64, then the length. -/
def padMsg (msg : List Nat) : List Nat :=
  msg ++ 128 :: List.replicate ((119 - msg.length % 64) % 64) 0
      ++ lenBytes msg.length

/-- Pack bytes into big-endian 32-bit words, four at a time. -/
def toWords : List Nat → List Nat
  | a :: b :: c :: d :: t =>
      (a * 16777216 + b * 65536 + c * 256 + d) :: toWords t
  | _ => []

/-- Split a word list into 16-word blocks (`fuel` bounds the recursion and is
always supplied as at least the number of blocks). -/
def toBlocks16 : Nat → List Nat → List (List Nat)
  | 0, _ => []
  | _ + 1, [] => []
  | fuel + 1, w :: ws => ((w :: ws).take 16) :: toBlocks16 fuel ((w :: ws).drop 16)

/-- SHA-256 of a byte list, as the final eight-word state. -/
def sha256state (msg : List Nat) : Hash8 :=
  let ws := toWords (padMsg msg)
  (toBlocks16 ws.length ws).foldl compress H0

/-- Big-endian bytes of one 32-bit word. -/
def wordBytes (w : Nat) : List Nat :=
  [w / 2 ^ 24 % 256, w / 2 ^ 16 % 256, w / 2 ^ 8 % 256, w % 256]

/-- SHA-256 digest of a byte list, as 32 bytes. -/
def sha256bytes (msg : List Nat) : List Nat :=
  let H := sha256state msg
  [H.a, H.b, H.c, H.d, H.e, H.f, H.g, H.h].flatMap wordBytes

/-- The sixteen lowercase hexadecimal digit characters. -/
def hexDigits : List Char := "0123456789abcdef".toList

/-- Lowercase hex digit of `n % 16`. -/
def hexChar (n : Nat) : Char := Nat.digitChar (n % 16)

/-- Hex digest, `hashlib.sha256(msg).hexdigest()`: 64 lowercase hex chars. -/
def sha256hex (msg : List Nat) : String :=
  String.mk ((sha256bytes msg).flatMap fun b => [hexChar (b / 16), hexChar b])


/-! ## DataFrames

A pandas DataFrame is embedded as its column labels plus one association
list per row mapping a column label to the cell value; a cell is
`Option String`, with `none` standing for a missing value (NaN), so
`pd.isna cell` is exactly `cell = none`.  `Series.get` on a row returns
`None` for a label the row does not carry, and `pd.isna None` holds, so
cell lookup flattens "column absent" and "cell NaN" into `none`. -/

/-- A cell of a DataFrame: `none` is pandas' missing value (NaN). -/
abbrev Cell := Option String

/-- A row, as an association list from column label to cell. -/
abbrev Row := List (String × Cell)

/-- A pandas DataFrame: column labels plus rows. -/
structure DataFrame where
  cols : List String
  rows : List Row
deriving DecidableEq, Repr

/-- Cell lookup, `row.get(c)` read through the `pd.isna` convention: a label the row does
not carry and a NaN cell both come out as `none`. -/
def getCell (r : Row) (c : String) : Cell := (List.lookup c r).join

/-! ## `compute_checksums` (the fingerprint Generator) -/

/-- The record dict built for one uploaded file
(`{"filename": ..., "sha256": hashlib.sha256(data).hexdigest()}`). -/
def checksumRecord (name : String) (data : List Nat) : Row :=
  [("filename", some name), ("sha256", some (sha256hex data))]

/-- Generator `compute_checksums(files)`: one record per uploaded file, in upload
order, then `pd.DataFrame(records)`.  A non-empty record list yields the
columns `filename`, `sha256` (key order of the dicts); an *empty* record
list yields `pd.DataFrame([])`, a frame with **no columns at all**. -/
def compute_checksums (files : List (String × List Nat)) : DataFrame :=
  { cols := if files.isEmpty then [] else ["filename", "sha256"],
    rows := files.map fun f => checksumRecord f.1 f.2 }

/-- Variant of `compute_checksums` where each `uploaded_file.read()` may raise
(`Except.error` is the raised exception).  The loop body has no handler, so
the first failing read propagates out of the whole call: no DataFrame is
produced and later files are not processed. -/
def compute_checksums_fallible (files : List (String × Except String (List Nat))) :
    Except String DataFrame :=
  match files with
  | [] => .ok (compute_checksums [])
  | (_, .error e) :: _ => .error e
  | (name, .ok data) :: rest =>
      match compute_checksums_fallible rest with
      | .error e => .error e
      | .ok df => .ok { cols := ["filename", "sha256"],
                        rows := checksumRecord name data :: df.rows }

/-! ## `compare_checksums` (the Reconciler)

`pd.merge(baseline_df, new_df, on="filename", how="outer",
suffixes=("_baseline", "_new"))` is embedded at the schemas this program
feeds it: both operands carry the columns `filename` and `sha256`, so the
overlapping `sha256` column is suffixed into `sha256_baseline` and
`sha256_new`.  If either operand lacks a `filename` column — which happens
exactly when `compute_checksums` got zero files — `pd.merge` raises
`KeyError`, embedded as `Except.error`.  Each left row joins
every right row with an equal `filename` key (no match: the right cells are
NaN), then every unmatched right row follows with NaN left cells; pandas
may order the joined rows differently, and no theorem below depends on the
order. -/

/-- A row of the merged frame, before classification. -/
structure MergedRow where
  filename : Cell
  sha256_baseline : Cell
  sha256_new : Cell
deriving DecidableEq, Repr

/-- The left (baseline) part of the outer join: each baseline row joined
with every current row of equal `filename` key, or with NaN current cells
when no current row matches. -/
def mergeLeft (nrows : List Row) : List Row → List MergedRow
  | [] => []
  | br :: rest =>
      let k := getCell br "filename"
      let ms := nrows.filter fun nr => getCell nr "filename" = k
      (if ms.isEmpty then [⟨k, getCell br "sha256", none⟩]
       else ms.map fun nr => ⟨k, getCell br "sha256", getCell nr "sha256"⟩)
      ++ mergeLeft nrows rest

/-- The right (current-only) part of the outer join: current rows whose
`filename` key matches no baseline row, with NaN baseline cells. -/
def mergeRight (brows nrows : List Row) : List MergedRow :=
  (nrows.filter fun nr =>
      !(brows.any fun br => getCell br "filename" = getCell nr "filename")).map
    fun nr => ⟨getCell nr "filename", none, getCell nr "sha256"⟩

/-- The full outer join on `filename`. -/
def mergeOuter (brows nrows : List Row) : List MergedRow :=
  mergeLeft nrows brows ++ mergeRight brows nrows

/-- The classification chain of `compare_checksums`, verbatim:
`pd.isna(baseline_hash)` ⟶ `new`, else `pd.isna(new_hash)` ⟶ `missing`,
else equal ⟶ `unchanged`, else `modified`. -/
def statusOf (baseline_hash new_hash : Cell) : String :=
  if baseline_hash = none then "new"
  else if new_hash = none then "missing"
  else if baseline_hash = new_hash then "unchanged"
  else "modified"

/-- One row of `merged[["filename", "sha256_baseline", "sha256_new",
"status"]]`, the frame `compare_checksums` returns. -/
structure CompRow where
  filename : Cell
  sha256_baseline : Cell
  sha256_new : Cell
  status : String
deriving DecidableEq, Repr

/-- Attach the status to a merged row. -/
def classify (r : MergedRow) : CompRow :=
  ⟨r.filename, r.sha256_baseline, r.sha256_new,
   statusOf r.sha256_baseline r.sha256_new⟩

/-- Reconciler `compare_checksums(baseline_df, new_df)`: outer-merge on `filename`
(raising `KeyError` when an operand lacks that column), compute the status
of every merged row, and return the four result columns. -/
def compare_checksums (baseline_df new_df : DataFrame) :
    Except String (List CompRow) :=
  if "filename" ∈ baseline_df.cols ∧ "filename" ∈ new_df.cols then
    .ok ((mergeOuter baseline_df.rows new_df.rows).map classify)
  else .error "KeyError: filename"

/-! ## The comparison path of `main` -/

/-- Projection `baseline_df[["filename", "sha256"]]`: every row kept, restricted to those two
columns (cells can still be NaN). -/
def projectBaseline (df : DataFrame) : DataFrame :=
  { cols := ["filename", "sha256"],
    rows := df.rows.map fun r =>
      [("filename", getCell r "filename"), ("sha256", getCell r "sha256")] }

/-- The error `main` shows for a baseline lacking the required columns. -/
def malformedBaselineMsg : String :=
  "Baseline CSV must contain at least two columns: filename and sha256"

/-- The compare-mode body of `main`, from the parsed baseline frame on:
reject the baseline unless its columns include `filename` and `sha256`
(returning before any merge, with no comparison rows), else project it,
compute the current checksums and compare. -/
def mainCompare (baseline_df : DataFrame) (new_files : List (String × List Nat)) :
    Except String (List CompRow) :=
  if "filename" ∈ baseline_df.cols ∧ "sha256" ∈ baseline_df.cols then
    compare_checksums (projectBaseline baseline_df) (compute_checksums new_files)
  else .error malformedBaselineMsg

/-! ## Fingerprint sets as DataFrames

The spec's FingerprintSet is a name-keyed mapping; this program carries it
as a `(filename, sha256)` DataFrame.  `toDF` builds that frame from a list
of (name, digest) pairs, and `toDFOpt` generalises to possibly-NaN digest
cells (a parsed baseline row can carry an empty digest cell). -/

/-- A baseline table row at the list level: a name and its digest cell. -/
abbrev FSRow := String × Option String

/-- The DataFrame row for one (name, digest-cell) pair. -/
def toRowOpt (p : FSRow) : Row :=
  [("filename", some p.1), ("sha256", p.2)]

/-- The baseline-shaped frame of a list of (name, digest-cell) pairs. -/
def toDFOpt (l : List FSRow) : DataFrame :=
  { cols := ["filename", "sha256"], rows := l.map toRowOpt }

/-- A fingerprint set (every digest present) as a baseline-shaped frame. -/
def toDF (l : List (String × String)) : DataFrame :=
  toDFOpt (l.map fun p => (p.1, some p.2))

/-- First binding of a key in a pair list: `some value` when the key
occurs, `none` when it does not.  At `β = String` this is lookup in a
fingerprint set; at `β = Option String` it is row lookup in a baseline
table whose digest cells may be NaN. -/
def keyLookup {β : Type} : List (String × β) → String → Option β
  | [], _ => none
  | p :: t, k => if p.1 = k then some p.2 else keyLookup t k

/-- Keys of a pair list are pairwise distinct (a FingerprintSet's keys are
unique within a set). -/
abbrev nodupKeys {β : Type} (l : List (String × β)) : Prop :=
  (l.map Prod.fst).Nodup

/-- What `compare_checksums` computes on two fingerprint sets carried as
baseline-shaped frames. -/
def reconcile (b n : List (String × String)) : List CompRow :=
  (mergeOuter (toDF b).rows (toDF n).rows).map classify

/-- The comparison records carrying a given filename. -/
def recordsFor (out : List CompRow) (name : String) : List CompRow :=
  out.filter fun r => r.filename = some name

/-- The union of the two key sets, as a list: baseline keys first, then the
current-only keys. -/
def keyUnion (b n : List (String × String)) : List String :=
  b.map Prod.fst ++ (n.map Prod.fst).filter (fun k => ¬ k ∈ b.map Prod.fst)

/-- Reconciliation when the baseline rows may carry null digest cells and
the current set likewise (the general, Opt-level form). -/
def reconcileOpt (b n : List FSRow) : List CompRow :=
  (mergeOuter (toDFOpt b).rows (toDFOpt n).rows).map classify

/-! ## CSV interchange: `df.to_csv(index=False)` and `pd.read_csv`

Serialisation follows the csv module's QUOTE_MINIMAL: a field containing a
comma, a quote, or a line break is wrapped in quotes with inner quotes
doubled; every line (header first) ends in a newline; a NaN cell is
written as the empty string.  Parsing is the standard CSV tokenizer
(quoted fields, doubled quotes), after which `read_csv` turns each field
that is one of pandas' default NA tokens into NaN.  pandas additionally
infers a numeric dtype for a column whose every value parses as a number;
that inference is not modelled, and the round-trip theorem below excludes
numeric-looking fields by hypothesis (`numericLike`). -/

/-- QUOTE_MINIMAL: does this field need quoting? -/
def needsQuote (s : List Char) : Bool :=
  s.any fun c => c = ',' ∨ c = '"' ∨ c = '\n' ∨ c = '\r'

/-- Double every quote character of a field body. -/
def escapeQuotes : List Char → List Char
  | [] => []
  | c :: t =>
      if c = '"' then '"' :: '"' :: escapeQuotes t else c :: escapeQuotes t

/-- Render one CSV field, quoting it when needed. -/
def renderField (s : List Char) : List Char :=
  if needsQuote s then '"' :: (escapeQuotes s ++ ['"']) else s

/-- A NaN cell serialises as the empty string. -/
def cellText : Cell → String
  | none => ""
  | some s => s

/-- One CSV line: comma-separated rendered fields, newline-terminated. -/
def renderLine : List String → List Char
  | [] => ['\n']
  | [f] => renderField f.data ++ ['\n']
  | f :: rest => renderField f.data ++ ',' :: renderLine rest

/-- Serialiser `df.to_csv(index=False)`: the header line, then one line per row with
the cells in column order. -/
def to_csv (df : DataFrame) : String :=
  String.mk (renderLine df.cols ++
    df.rows.flatMap fun r =>
      renderLine (df.cols.map fun c => cellText (getCell r c)))

/-- The CSV tokenizer, one character at a time.  State: whether we are
inside a quoted field, the characters of the current field, the fields of
the current row, and the finished rows. -/
def csvScan : List Char → Bool → List Char → List String →
    List (List String) → List (List String)
  | [], _, field, row, acc =>
      if field.isEmpty && row.isEmpty then acc
      else acc ++ [row ++ [String.mk field]]
  | '"' :: '"' :: rest, true, field, row, acc =>
      csvScan rest true (field ++ ['"']) row acc
  | '"' :: rest, true, field, row, acc => csvScan rest false field row acc
  | c :: rest, true, field, row, acc =>
      csvScan rest true (field ++ [c]) row acc
  | c :: rest, false, field, row, acc =>
      if c = '"' then csvScan rest true field row acc
      else if c = ',' then
        csvScan rest false [] (row ++ [String.mk field]) acc
      else if c = '\n' then
        csvScan rest false [] [] (acc ++ [row ++ [String.mk field]])
      else csvScan rest false (field ++ [c]) row acc

/-- Tokenize a whole CSV text into rows of fields. -/
def parseRows (cs : List Char) : List (List String) :=
  csvScan cs false [] [] []

/-- pandas' default NA tokens: `read_csv` turns these fields into NaN. -/
def naTokens : List String :=
  ["", "#N/A", "#N/A N/A", "#NA", "-1.#IND", "-1.#QNAN", "-NaN", "-nan",
   "1.#IND", "1.#QNAN", "<NA>", "N/A", "NA", "NULL", "NaN", "None",
   "n/a", "nan", "null"]

/-- Field-to-cell conversion: NA tokens become NaN, other fields keep
their text. -/
def convertField (s : String) : Cell :=
  if naTokens.contains s then none else some s

/-- Reader `pd.read_csv`: tokenize, take the first row as the column labels, and
convert every further row's fields (an empty tokenization is pandas'
EmptyDataError). -/
def read_csv (s : String) : Except String DataFrame :=
  match parseRows s.data with
  | [] => .error "EmptyDataError: No columns to parse from file"
  | header :: rows =>
      .ok { cols := header,
            rows := rows.map fun fields =>
              (header.zip fields).map fun hf => (hf.1, convertField hf.2) }

/-- Decimal digit. -/
def isDigitChar (c : Char) : Bool := '0' ≤ c ∧ c ≤ '9'

/-- Non-empty all-digit run. -/
def digitsOnly (s : List Char) : Bool := !s.isEmpty && s.all isDigitChar

/-- Mantissa of a numeric literal: digits, possibly split by one decimal
point with digits on at least one side. -/
def mantissaLike (s : List Char) : Bool :=
  match s.splitOn '.' with
  | [m] => digitsOnly m
  | [m, f] => (m.all isDigitChar && f.all isDigitChar) &&
      (!m.isEmpty || !f.isEmpty)
  | _ => false

/-- Drop one leading sign. -/
def stripSign : List Char → List Char
  | '+' :: t => t
  | '-' :: t => t
  | s => s

/-- A field pandas' reader would parse as a number (integer or float,
optionally signed, with an optional exponent part) or as an infinity. -/
def numericLike (s : String) : Bool :=
  let t := (stripSign s.data).map Char.toLower
  (match t.splitOn 'e' with
   | [m] => mantissaLike m
   | [m, ex] => mantissaLike m && digitsOnly (stripSign ex)
   | _ => false)
  || t = "inf".data || t = "infinity".data

/-- A field the reader keeps as its own text: neither an NA token nor
numeric-looking. -/
def keptAsText (s : String) : Bool :=
  !naTokens.contains s && !numericLike s

set_option maxRecDepth 10000 in
/-- The well-known SHA-256 digest of the empty input, checked by kernel
evaluation of the embedded hash. -/
theorem sha256hex_empty : sha256hex [] =
    "e3b0c44298fc1c149afbf4c8996fb92427ae41e4649b934ca495991b7852b855" := by
  decide

theorem getCell_filename (p : FSRow) :
    getCell (toRowOpt p) "filename" = some p.1 := rfl

theorem getCell_sha (p : FSRow) :
    getCell (toRowOpt p) "sha256" = p.2 := by
  rcases p with ⟨k, v⟩
  cases v <;> rfl

theorem keyLookup_map_some (l : List (String × String)) (k : String) :
    keyLookup (l.map fun p => (p.1, some p.2)) k = (keyLookup l k).map some := by
  induction l with
  | nil => rfl
  | cons p t ih =>
      by_cases h : p.1 = k <;> simp [keyLookup, h, ih]

/-- Filtering mapped rows by filename key is filtering the pairs by key. -/
theorem filter_key_map (n : List FSRow) (k : String) :
    (n.map toRowOpt).filter (fun nr => getCell nr "filename" = some k) =
      (n.filter fun q => q.1 = k).map toRowOpt := by
  induction n with
  | nil => rfl
  | cons q t ih =>
      by_cases h : q.1 = k <;>
        simp [List.filter, getCell_filename, h, ih]

/-- A key absent from a pair list matches nothing under the key filter. -/
theorem filter_key_not_mem {β : Type} (l : List (String × β)) (k : String)
    (h : k ∉ l.map Prod.fst) :
    (l.filter fun q => q.1 = k) = [] := by
  induction l with
  | nil => rfl
  | cons q t ih =>
      simp only [List.map_cons, List.mem_cons] at h
      push_neg at h
      simp [List.filter, Ne.symm h.1, ih h.2]

/-- With unique keys, the key filter returns the unique binding of the key,
or nothing. -/
theorem filter_key_nodup {β : Type} (n : List (String × β)) (k : String)
    (hn : nodupKeys n) :
    (n.filter fun q => q.1 = k) =
      (match keyLookup n k with
       | none => []
       | some v => [(k, v)]) := by
  induction n with
  | nil => rfl
  | cons q t ih =>
      simp only [nodupKeys, List.map_cons, List.nodup_cons] at hn
      by_cases h : q.1 = k
      · subst h
        simp [List.filter, keyLookup, filter_key_not_mem t q.1 hn.1]
      · simp [List.filter, h, keyLookup, ih hn.2]

/-- Key membership of a pair list, as `any`, is success of `keyLookup`. -/
theorem any_key_eq_isSome {β : Type} (b : List (String × β)) (k : String) :
    (b.any fun p => p.1 = k) = (keyLookup b k).isSome := by
  induction b with
  | nil => rfl
  | cons p t ih =>
      by_cases h : p.1 = k <;> simp [List.any, keyLookup, h, ih]

/-- A key is bound iff it occurs among the keys. -/
theorem keyLookup_isSome_iff {β : Type} (l : List (String × β)) (k : String) :
    (keyLookup l k).isSome = true ↔ k ∈ l.map Prod.fst := by
  induction l with
  | nil => simp [keyLookup]
  | cons p t ih =>
      by_cases h : p.1 = k
      · simp [keyLookup, h]
      · simp only [keyLookup, h, if_false, List.map_cons, List.mem_cons, ih]
        constructor
        · exact fun hm => Or.inr hm
        · rintro (rfl | hm)
          · exact absurd rfl h
          · exact hm

/-- With unique keys, every member is bound to its own value. -/
theorem keyLookup_mem {β : Type} (l : List (String × β)) (hl : nodupKeys l)
    (p : String × β) (hp : p ∈ l) : keyLookup l p.1 = some p.2 := by
  induction l with
  | nil => cases hp
  | cons q t ih =>
      simp only [nodupKeys, List.map_cons, List.nodup_cons] at hl
      rcases List.mem_cons.mp hp with h | h
      · subst h; simp [keyLookup]
      · have hne : q.1 ≠ p.1 := by
          intro hqp
          exact hl.1 (hqp ▸ List.mem_map_of_mem Prod.fst h)
        simp [keyLookup, hne, ih hl.2 h]

/-- Characterisation of the left part of the outer join, for a current set
with unique keys: one merged row per baseline row, carrying the baseline
digest cell and the current set's binding of the key (flattened to a NaN
cell when the key is absent). -/
theorem mergeLeft_char (n : List FSRow) (b : List FSRow) (hn : nodupKeys n) :
    mergeLeft (n.map toRowOpt) (b.map toRowOpt) =
      b.map fun p => ⟨some p.1, p.2, (keyLookup n p.1).join⟩ := by
  induction b with
  | nil => rfl
  | cons p t ih =>
      simp only [List.map_cons, mergeLeft, getCell_filename, getCell_sha,
        filter_key_map, filter_key_nodup n p.1 hn]
      cases hkl : keyLookup n p.1 with
      | none => simp [hkl, ih, Option.join]
      | some v => simp [hkl, ih, Option.join, getCell_sha (p.1, v)]

/-- Rows of a mapped baseline contain a filename key iff `keyLookup`
binds it. -/
theorem any_filename_map (b : List FSRow) (k : String) :
    ((b.map toRowOpt).any fun br => getCell br "filename" = some k) =
      (keyLookup b k).isSome := by
  induction b with
  | nil => rfl
  | cons p t ih =>
      by_cases h : p.1 = k <;>
        simp [List.any, getCell_filename, keyLookup, h, ih]

/-- Characterisation of the right part of the outer join: the current rows
whose key the baseline does not bind, with NaN baseline cells. -/
theorem mergeRight_char (b n : List FSRow) :
    mergeRight (b.map toRowOpt) (n.map toRowOpt) =
      (n.filter fun q => (keyLookup b q.1).isNone).map
        fun q => ⟨some q.1, none, q.2⟩ := by
  induction n with
  | nil => rfl
  | cons q t ih =>
      have hq : (!(b.map toRowOpt).any fun br =>
          getCell br "filename" = getCell (toRowOpt q) "filename") =
          (keyLookup b q.1).isNone := by
        rw [getCell_filename, any_filename_map]
        cases keyLookup b q.1 <;> rfl
      simp only [mergeRight, List.map_cons, List.filter_cons] at ih ⊢
      rw [hq]
      cases hkb : (keyLookup b q.1).isNone <;>
        simp [hkb, ih, mergeRight, getCell_filename, getCell_sha q]

/-- Full characterisation of the outer join of two baseline-shaped frames,
for a current set with unique keys. -/
theorem mergeOuter_char (b n : List FSRow) (hn : nodupKeys n) :
    mergeOuter (toDFOpt b).rows (toDFOpt n).rows =
      (b.map fun p => ⟨some p.1, p.2, (keyLookup n p.1).join⟩)
      ++ (n.filter fun q => (keyLookup b q.1).isNone).map
          (fun q => ⟨some q.1, none, q.2⟩) := by
  simp [mergeOuter, toDFOpt, mergeLeft_char n b hn, mergeRight_char b n]


/-! ## Reconciliation of two fingerprint sets -/


theorem compare_toDF (b n : List (String × String)) :
    compare_checksums (toDF b) (toDF n) = .ok (reconcile b n) := rfl

theorem join_map_some (x : Option String) : (x.map some).join = x := by
  cases x <;> rfl

theorem isNone_map_some (x : Option String) :
    (x.map some).isNone = x.isNone := by
  cases x <;> rfl

theorem nodupKeys_map_some (l : List (String × String)) (h : nodupKeys l) :
    nodupKeys (l.map fun p => (p.1, some p.2)) := by
  simpa [nodupKeys, List.map_map, Function.comp] using h

/-- Characterisation of reconciliation on fingerprint sets with unique
current keys: one classified record per baseline entry, carrying the
current set's digest of the name, then one `new`-shaped record per current
entry whose name the baseline does not bind. -/
theorem reconcile_char (b n : List (String × String)) (hn : nodupKeys n) :
    reconcile b n =
      (b.map fun p => classify ⟨some p.1, some p.2, keyLookup n p.1⟩)
      ++ (n.filter fun q => (keyLookup b q.1).isNone).map
          (fun q => classify ⟨some q.1, none, some q.2⟩) := by
  unfold reconcile
  rw [show toDF b = toDFOpt (b.map fun p => (p.1, some p.2)) from rfl,
      show toDF n = toDFOpt (n.map fun p => (p.1, some p.2)) from rfl,
      mergeOuter_char _ _ (nodupKeys_map_some n hn)]
  rw [List.map_append, List.map_map, List.map_map, List.filter_map,
      List.map_map]
  congr 1
  · refine List.map_congr_left fun p _ => ?_
    simp only [Function.comp_apply, keyLookup_map_some]
    cases keyLookup n p.1 <;> rfl
  · have hfil : List.filter
        ((fun q => (keyLookup (List.map (fun p => (p.1, some p.2)) b) q.1).isNone)
          ∘ fun p => (p.1, some p.2)) n
        = List.filter (fun q : String × String => (keyLookup b q.1).isNone) n := by
      refine List.filter_congr fun q _ => ?_
      simp only [Function.comp_apply, keyLookup_map_some, isNone_map_some]
    rw [hfil, List.map_map]
    refine List.map_congr_left fun q _ => ?_
    simp only [Function.comp_apply]

/-- The status chain, characterised: `new` exactly on a NaN baseline cell,
`missing` exactly on a present baseline cell with NaN current cell,
`unchanged` / `modified` exactly on two present, equal / unequal cells. -/
theorem statusOf_spec (bh nh : Cell) :
    (statusOf bh nh = "unchanged" ↔ ∃ d, bh = some d ∧ nh = some d) ∧
    (statusOf bh nh = "modified" ↔
      ∃ d e, bh = some d ∧ nh = some e ∧ d ≠ e) ∧
    (statusOf bh nh = "new" ↔ bh = none) ∧
    (statusOf bh nh = "missing" ↔ bh ≠ none ∧ nh = none) := by
  cases bh with
  | none => simp [statusOf]
  | some d =>
      cases nh with
      | none => simp [statusOf]
      | some e =>
          by_cases h : d = e
          · subst h; simp [statusOf]
          · simp [statusOf, h, Ne.symm h]


/-- On fingerprint sets with unique keys, the records for a name are: one
record built from the two lookups when the name is in either set, none
otherwise. -/
theorem recordsFor_reconcile (b n : List (String × String))
    (hb : nodupKeys b) (hn : nodupKeys n) (name : String) :
    recordsFor (reconcile b n) name =
      match keyLookup b name, keyLookup n name with
      | some bd, o => [classify ⟨some name, some bd, o⟩]
      | none, some nd => [classify ⟨some name, none, some nd⟩]
      | none, none => [] := by
  rw [recordsFor, reconcile_char b n hn, List.filter_append]
  have h1 : List.filter (fun r => r.filename = some name)
      (b.map fun p => classify ⟨some p.1, some p.2, keyLookup n p.1⟩)
      = (List.filter (fun p => p.1 = name) b).map
          (fun p => classify ⟨some p.1, some p.2, keyLookup n p.1⟩) := by
    rw [List.filter_map]
    congr 1
    refine List.filter_congr fun p _ => ?_
    simp [classify]
  have h2 : List.filter (fun r => r.filename = some name)
      ((n.filter fun q => (keyLookup b q.1).isNone).map
        fun q => classify ⟨some q.1, none, some q.2⟩)
      = ((n.filter fun q => (keyLookup b q.1).isNone).filter
          (fun q => q.1 = name)).map
          (fun q => classify ⟨some q.1, none, some q.2⟩) := by
    rw [List.filter_map]
    congr 1
    refine List.filter_congr fun q _ => ?_
    simp [classify]
  have h3 : List.filter (fun q : String × String => q.1 = name)
      (List.filter (fun q => (keyLookup b q.1).isNone) n)
      = List.filter (fun q => (keyLookup b q.1).isNone)
          (List.filter (fun q => q.1 = name) n) := by
    rw [List.filter_filter, List.filter_filter]
    exact List.filter_congr fun q _ => Bool.and_comm _ _
  rw [h1, h2, h3, filter_key_nodup b name hb, filter_key_nodup n name hn]
  cases kb : keyLookup b name <;> cases kn : keyLookup n name <;>
    simp [List.filter, kb, kn]

/-- Claim C1:  For fingerprint sets `b` (baseline) and `n` (current) and any
name in the union of their keys, the Reconciler emits exactly one record
for that name, carrying the two lookups as digest cells, and its status is
`unchanged` iff both digests are present and equal, `modified` iff both are
present and unequal, `new` iff the baseline digest is absent, and `missing`
iff the current digest is absent. -/
theorem reconcile_status_rules (b n : List (String × String))
    (hb : nodupKeys b) (hn : nodupKeys n) (name : String)
    (hmem : name ∈ b.map Prod.fst ∨ name ∈ n.map Prod.fst) :
    ∃ out r, compare_checksums (toDF b) (toDF n) = .ok out ∧
      recordsFor out name = [r] ∧
      r.sha256_baseline = keyLookup b name ∧
      r.sha256_new = keyLookup n name ∧
      (r.status = "unchanged" ↔
        ∃ d, keyLookup b name = some d ∧ keyLookup n name = some d) ∧
      (r.status = "modified" ↔
        ∃ d e, keyLookup b name = some d ∧ keyLookup n name = some e ∧
          d ≠ e) ∧
      (r.status = "new" ↔ keyLookup b name = none) ∧
      (r.status = "missing" ↔ keyLookup n name = none) := by
  have hnn : ¬(keyLookup b name = none ∧ keyLookup n name = none) := by
    rintro ⟨h1, h2⟩
    rw [← keyLookup_isSome_iff, ← keyLookup_isSome_iff] at hmem
    rcases hmem with h | h
    · rw [h1] at h; cases h
    · rw [h2] at h; cases h
  refine ⟨reconcile b n,
    classify ⟨some name, keyLookup b name, keyLookup n name⟩,
    compare_toDF b n, ?_, rfl, rfl, ?_, ?_, ?_, ?_⟩
  · rw [recordsFor_reconcile b n hb hn name]
    cases kb : keyLookup b name <;> cases kn : keyLookup n name
    · exact absurd ⟨kb, kn⟩ hnn
    all_goals rfl
  · exact (statusOf_spec (keyLookup b name) (keyLookup n name)).1
  · exact (statusOf_spec (keyLookup b name) (keyLookup n name)).2.1
  · exact (statusOf_spec (keyLookup b name) (keyLookup n name)).2.2.1
  · constructor
    · intro h
      exact ((statusOf_spec (keyLookup b name) (keyLookup n name)).2.2.2.mp
        h).2
    · intro h
      refine (statusOf_spec (keyLookup b name) (keyLookup n name)).2.2.2.mpr
        ⟨?_, h⟩
      intro hb0
      exact hnn ⟨hb0, h⟩

/-- Closed instance of `reconcile_status_rules`: its hypotheses hold and
its conclusion follows at a two-name example. -/
theorem reconcile_status_rules_witness :
    nodupKeys [("a", "x")] ∧ nodupKeys [("a", "y"), ("b", "z")] ∧
    ("a" ∈ ([("a", "x")].map Prod.fst) ∨
      "a" ∈ ([("a", "y"), ("b", "z")].map Prod.fst)) ∧
    ∃ out r,
      compare_checksums (toDF [("a", "x")]) (toDF [("a", "y"), ("b", "z")]) =
        .ok out ∧
      recordsFor out "a" = [r] ∧
      r.sha256_baseline = keyLookup [("a", "x")] "a" ∧
      r.sha256_new = keyLookup [("a", "y"), ("b", "z")] "a" ∧
      (r.status = "unchanged" ↔
        ∃ d, keyLookup [("a", "x")] "a" = some d ∧
          keyLookup [("a", "y"), ("b", "z")] "a" = some d) ∧
      (r.status = "modified" ↔
        ∃ d e, keyLookup [("a", "x")] "a" = some d ∧
          keyLookup [("a", "y"), ("b", "z")] "a" = some e ∧ d ≠ e) ∧
      (r.status = "new" ↔ keyLookup [("a", "x")] "a" = none) ∧
      (r.status = "missing" ↔
        keyLookup [("a", "y"), ("b", "z")] "a" = none) :=
  ⟨by decide, by decide, by decide,
   reconcile_status_rules [("a", "x")] [("a", "y"), ("b", "z")]
     (by decide) (by decide) "a" (by decide)⟩

theorem keyLookup_isNone_eq {β : Type} (l : List (String × β)) (k : String) :
    (keyLookup l k).isNone = !(decide (k ∈ l.map Prod.fst)) := by
  cases hk : keyLookup l k with
  | none =>
      have hm : ¬ k ∈ l.map Prod.fst := by
        rw [← keyLookup_isSome_iff, hk]; simp
      simp [hm]
  | some v =>
      have hm : k ∈ l.map Prod.fst := by
        rw [← keyLookup_isSome_iff, hk]; rfl
      simp [hm]


/-- Claim C2:  On fingerprint sets with unique keys, the Reconciler emits
exactly one record per name in the union of the key sets: the output
filenames enumerate the (duplicate-free) key union, so no name is dropped,
none is duplicated, and the output length is the union's cardinality. -/
theorem reconcile_union_exact (b n : List (String × String))
    (hb : nodupKeys b) (hn : nodupKeys n) :
    ∃ out, compare_checksums (toDF b) (toDF n) = .ok out ∧
      out.map (fun r => r.filename) = (keyUnion b n).map some ∧
      (keyUnion b n).Nodup ∧
      out.length = (keyUnion b n).length ∧
      ∀ k, k ∈ keyUnion b n ↔
        (k ∈ b.map Prod.fst ∨ k ∈ n.map Prod.fst) := by
  have hfirst : (b.map fun p =>
        classify ⟨some p.1, some p.2, keyLookup n p.1⟩).map
          (fun r => r.filename)
      = (b.map Prod.fst).map some := by
    rw [List.map_map, List.map_map]
    exact List.map_congr_left fun p _ => rfl
  have hsecond : ((n.filter fun q => (keyLookup b q.1).isNone).map
        fun q => classify ⟨some q.1, none, some q.2⟩).map
          (fun r => r.filename)
      = ((n.map Prod.fst).filter fun k => ¬ k ∈ b.map Prod.fst).map some := by
    rw [List.map_map, List.filter_map, List.map_map]
    have hfil : (n.filter fun q => (keyLookup b q.1).isNone)
        = n.filter ((fun k => decide (¬ k ∈ b.map Prod.fst)) ∘ Prod.fst) := by
      refine List.filter_congr fun q _ => ?_
      simp [keyLookup_isNone_eq]
    rw [hfil]
    exact List.map_congr_left fun q _ => rfl
  have hmap : (reconcile b n).map (fun r => r.filename) =
      (keyUnion b n).map some := by
    rw [reconcile_char b n hn, List.map_append, keyUnion, List.map_append,
        hfirst, hsecond]
  refine ⟨reconcile b n, compare_toDF b n, hmap, ?_, ?_, ?_⟩
  · rw [keyUnion, List.nodup_append]
    refine ⟨hb, List.Nodup.filter _ hn, ?_⟩
    intro k hk1 hk2
    rw [List.mem_filter] at hk2
    simp only [decide_not, Bool.not_eq_true', decide_eq_false_iff_not] at hk2
    exact hk2.2 hk1
  · have := congrArg List.length hmap
    simpa using this
  · intro k
    simp only [keyUnion, List.mem_append, List.mem_filter, decide_not,
      Bool.not_eq_true', decide_eq_false_iff_not]
    by_cases h : k ∈ b.map Prod.fst <;> simp [h]

/-- Closed instance of `reconcile_union_exact` at a concrete pair of
fingerprint sets. -/
theorem reconcile_union_exact_witness :
    nodupKeys [("a", "x"), ("b", "y")] ∧ nodupKeys [("b", "z"), ("c", "w")] ∧
    ∃ out, compare_checksums (toDF [("a", "x"), ("b", "y")])
        (toDF [("b", "z"), ("c", "w")]) = .ok out ∧
      out.map (fun r => r.filename) =
        (keyUnion [("a", "x"), ("b", "y")] [("b", "z"), ("c", "w")]).map
          some ∧
      (keyUnion [("a", "x"), ("b", "y")] [("b", "z"), ("c", "w")]).Nodup ∧
      out.length =
        (keyUnion [("a", "x"), ("b", "y")] [("b", "z"), ("c", "w")]).length ∧
      ∀ k, k ∈ keyUnion [("a", "x"), ("b", "y")] [("b", "z"), ("c", "w")] ↔
        (k ∈ [("a", "x"), ("b", "y")].map Prod.fst ∨
          k ∈ [("b", "z"), ("c", "w")].map Prod.fst) :=
  ⟨by decide, by decide,
   reconcile_union_exact [("a", "x"), ("b", "y")] [("b", "z"), ("c", "w")]
     (by decide) (by decide)⟩

/-- Claim C8:  Reconciling a fingerprint set with itself yields status
`unchanged` on every record, one record per name of the set, and no record
with status `new` or `missing`. -/
theorem reconcile_self_unchanged (a : List (String × String))
    (ha : nodupKeys a) :
    ∃ out, compare_checksums (toDF a) (toDF a) = .ok out ∧
      (∀ r ∈ out, r.status = "unchanged") ∧
      (∀ k ∈ a.map Prod.fst, ∃ r ∈ out, r.filename = some k ∧
        r.status = "unchanged") ∧
      ∀ r ∈ out, r.status ≠ "new" ∧ r.status ≠ "missing" := by
  have hchar : reconcile a a =
      a.map fun p => classify ⟨some p.1, some p.2, some p.2⟩ := by
    rw [reconcile_char a a ha]
    have hfil : (a.filter fun q => (keyLookup a q.1).isNone) = [] := by
      rw [List.filter_eq_nil_iff]
      intro q hq
      rw [keyLookup_mem a ha q hq]
      simp
    rw [hfil]
    simp only [List.map_nil, List.append_nil]
    refine List.map_congr_left fun p hp => ?_
    rw [keyLookup_mem a ha p hp]
  refine ⟨reconcile a a, compare_toDF a a, ?_, ?_, ?_⟩
  · intro r hr
    rw [hchar] at hr
    obtain ⟨p, _, rfl⟩ := List.mem_map.mp hr
    simp [classify, statusOf]
  · intro k hk
    obtain ⟨p, hp, rfl⟩ := List.mem_map.mp hk
    refine ⟨classify ⟨some p.1, some p.2, some p.2⟩, ?_, rfl,
      by simp [classify, statusOf]⟩
    rw [hchar]
    exact List.mem_map_of_mem _ hp
  · intro r hr
    rw [hchar] at hr
    obtain ⟨p, _, rfl⟩ := List.mem_map.mp hr
    constructor <;> simp [classify, statusOf]

/-- Closed instance of `reconcile_self_unchanged` at a concrete set. -/
theorem reconcile_self_unchanged_witness :
    nodupKeys [("a", "x"), ("b", "y")] ∧
    ∃ out, compare_checksums (toDF [("a", "x"), ("b", "y")])
        (toDF [("a", "x"), ("b", "y")]) = .ok out ∧
      (∀ r ∈ out, r.status = "unchanged") ∧
      (∀ k ∈ [("a", "x"), ("b", "y")].map Prod.fst, ∃ r ∈ out,
        r.filename = some k ∧ r.status = "unchanged") ∧
      ∀ r ∈ out, r.status ≠ "new" ∧ r.status ≠ "missing" :=
  ⟨by decide, reconcile_self_unchanged [("a", "x"), ("b", "y")] (by decide)⟩

/-! ## The Generator: rows, duplicates, digests, read failures -/

/-- Claim C3, counterexample:  Two uploads sharing the name `a` yield a
table with *two* rows for `a`, refuting that the Generator keeps exactly
one (last-write-wins) entry per duplicated name: the Generator appends one
record per upload and never overwrites. -/
theorem compute_checksums_dup_two_rows :
    ((compute_checksums [("a", []), ("a", [0])]).rows.map
        fun r => getCell r "filename") = [some "a", some "a"] ∧
    (compute_checksums [("a", []), ("a", [0])]).rows.length = 2 :=
  ⟨rfl, rfl⟩

/-- Claim C3, amended:  The Generator emits exactly one row per input pair,
in input order, each carrying that pair's own digest; in particular pairs
sharing a name all survive as separate rows (no overwrite, no error). -/
theorem compute_checksums_rows (files : List (String × List Nat)) :
    (compute_checksums files).rows =
      files.map fun f =>
        [("filename", some f.1), ("sha256", some (sha256hex f.2))] := rfl

/-- Claim C4:  With a one-entry baseline and zero current files, the
comparison does not succeed with a single `missing` record: the Generator's
output for an empty upload list is a frame with no columns at all, so the
merge on `filename` raises `KeyError` and no comparison row is produced. -/
theorem compare_empty_current_raises :
    compute_checksums [] = ⟨[], []⟩ ∧
    compare_checksums (toDF [("a.txt", "d1")]) (compute_checksums []) =
      .error "KeyError: filename" :=
  ⟨rfl, rfl⟩

/-- Claim C5:  A baseline table lacking the `filename` column or the
`sha256` column is rejected with the malformed-baseline error before any
join is attempted: the comparison returns the error and zero rows. -/
theorem mainCompare_malformed (bdf : DataFrame)
    (files : List (String × List Nat))
    (h : "filename" ∉ bdf.cols ∨ "sha256" ∉ bdf.cols) :
    mainCompare bdf files = .error malformedBaselineMsg := by
  have h2 : ¬ ("filename" ∈ bdf.cols ∧ "sha256" ∈ bdf.cols) := by tauto
  simp [mainCompare, h2]

/-- Closed instance of `mainCompare_malformed`: a baseline with only a
`filename` column is rejected. -/
theorem mainCompare_malformed_witness :
    ("filename" ∉ (DataFrame.mk ["filename"] []).cols ∨
      "sha256" ∉ (DataFrame.mk ["filename"] []).cols) ∧
    mainCompare ⟨["filename"], []⟩ [("a", [])] =
      .error malformedBaselineMsg :=
  ⟨Or.inr (by decide),
   mainCompare_malformed ⟨["filename"], []⟩ [("a", [])]
     (Or.inr (by decide))⟩

/-- When every read succeeds, the fallible Generator returns exactly the
pure Generator's table. -/
theorem compute_checksums_fallible_agrees (files : List (String × List Nat)) :
    compute_checksums_fallible (files.map fun f => (f.1, .ok f.2)) =
      .ok (compute_checksums files) := by
  induction files with
  | nil => rfl
  | cons f t ih =>
      simp only [List.map_cons, compute_checksums_fallible, ih]
      rfl

/-- Claim C6, counterexample:  A failing read in the middle of a batch is
not isolated to its entry: the whole Generator call fails with that read's
error, the successfully read first entry is not reported, and the third
entry is never processed. -/
theorem compute_checksums_fallible_abort_example :
    compute_checksums_fallible
      [("a", .ok []), ("b", .error "IOError"), ("c", .ok [])] =
      .error "IOError" := rfl

/-- Claim C6, amended:  After any prefix of successful reads, a failing
read aborts the whole batch with that read's error: no fingerprint set is
returned, so neither the already-read entries nor the entries after the
failure appear in any result. -/
theorem compute_checksums_fallible_aborts (pre : List (String × List Nat))
    (name msg : String) (post : List (String × Except String (List Nat))) :
    compute_checksums_fallible
      ((pre.map fun f => (f.1, .ok f.2)) ++ (name, .error msg) :: post) =
      .error msg := by
  induction pre with
  | nil => rfl
  | cons f t ih =>
      simp only [List.map_cons, List.cons_append, compute_checksums_fallible,
        List.append_eq, ih]

/-- Every hex digit is one of the sixteen lowercase hex characters. -/
theorem hexChar_mem (n : Nat) : hexChar n ∈ hexDigits := by
  rw [hexChar]
  have h : n % 16 < 16 := Nat.mod_lt _ (by norm_num)
  set m := n % 16 with hm
  interval_cases m <;> decide

/-- Claim C7:  The Generator's digest of any byte content is its SHA-256
hash rendered as exactly 64 lowercase hexadecimal characters — every row of
the Generator's table carries `sha256hex` of that file's full content — and
the empty content's digest is the well-known SHA-256 empty-input value. -/
theorem sha256hex_spec :
    (∀ msg : List Nat, (sha256hex msg).length = 64 ∧
      (sha256hex msg).data.all fun c => c ∈ hexDigits) ∧
    sha256hex [] =
      "e3b0c44298fc1c149afbf4c8996fb92427ae41e4649b934ca495991b7852b855" ∧
    ∀ files : List (String × List Nat),
      (compute_checksums files).rows =
        files.map fun f =>
          [("filename", some f.1), ("sha256", some (sha256hex f.2))] := by
  refine ⟨fun msg => ⟨rfl, ?_⟩, sha256hex_empty, fun files => rfl⟩
  rw [List.all_eq_true]
  intro c hc
  have hfm : c ∈ (sha256bytes msg).flatMap fun b =>
      [hexChar (b / 16), hexChar b] := hc
  rw [List.mem_flatMap] at hfm
  obtain ⟨b, _, hcb⟩ := hfm
  rw [List.mem_cons, List.mem_singleton] at hcb
  rcases hcb with h | h
  · exact decide_eq_true (h ▸ hexChar_mem (b / 16))
  · exact decide_eq_true (h ▸ hexChar_mem b)

/-! ## Null digest cells in a parsed baseline (C10) -/


theorem compare_toDFOpt (b n : List FSRow) :
    compare_checksums (toDFOpt b) (toDFOpt n) = .ok (reconcileOpt b n) := rfl

/-- Removing every row binding a key unbinds that key. -/
theorem keyLookup_filter_self {β : Type} (l : List (String × β))
    (name : String) :
    keyLookup (l.filter fun p => ¬ p.1 = name) name = none := by
  cases hk : keyLookup (l.filter fun p => ¬ p.1 = name) name with
  | none => rfl
  | some v =>
      have hm : name ∈ (l.filter fun p => ¬ p.1 = name).map Prod.fst := by
        rw [← keyLookup_isSome_iff, hk]; rfl
      obtain ⟨p, hp, hpe⟩ := List.mem_map.mp hm
      rw [List.mem_filter] at hp
      simp only [decide_not, Bool.not_eq_true', decide_eq_false_iff_not]
        at hp
      exact absurd hpe hp.2

/-- Opt-level analogue of `recordsFor_reconcile`: the records for a name,
from the row lookups of the two tables. -/
theorem recordsFor_reconcileOpt (b n : List FSRow)
    (hb : nodupKeys b) (hn : nodupKeys n) (name : String) :
    recordsFor (reconcileOpt b n) name =
      match keyLookup b name, keyLookup n name with
      | some bc, o => [classify ⟨some name, bc, o.join⟩]
      | none, some nc => [classify ⟨some name, none, nc⟩]
      | none, none => [] := by
  rw [recordsFor, reconcileOpt,
      mergeOuter_char b n hn, List.map_append, List.map_map, List.map_map,
      List.filter_append]
  have h1 : List.filter (fun r => r.filename = some name)
      (b.map (classify ∘ fun p => ⟨some p.1, p.2, (keyLookup n p.1).join⟩))
      = (List.filter (fun p => p.1 = name) b).map
          (classify ∘ fun p => ⟨some p.1, p.2, (keyLookup n p.1).join⟩) := by
    rw [List.filter_map]
    congr 1
    refine List.filter_congr fun p _ => ?_
    simp [classify]
  have h2 : List.filter (fun r => r.filename = some name)
      ((n.filter fun q => (keyLookup b q.1).isNone).map
        (classify ∘ fun q => ⟨some q.1, none, q.2⟩))
      = ((n.filter fun q => (keyLookup b q.1).isNone).filter
          (fun q => q.1 = name)).map
          (classify ∘ fun q => ⟨some q.1, none, q.2⟩) := by
    rw [List.filter_map]
    congr 1
    refine List.filter_congr fun q _ => ?_
    simp [classify]
  have h3 : List.filter (fun q : FSRow => q.1 = name)
      (List.filter (fun q => (keyLookup b q.1).isNone) n)
      = List.filter (fun q => (keyLookup b q.1).isNone)
          (List.filter (fun q => q.1 = name) n) := by
    rw [List.filter_filter, List.filter_filter]
    exact List.filter_congr fun q _ => Bool.and_comm _ _
  rw [h1, h2, h3, filter_key_nodup b name hb, filter_key_nodup n name hn]
  cases kb : keyLookup b name <;> cases kn : keyLookup n name <;>
    simp [List.filter, kb, kn]

set_option maxRecDepth 10000 in
/-- Claim C10, counterexample:  A baseline row for `a.txt` with a null
digest cell is *not* indistinguishable from `a.txt` being absent from the
baseline: with current set `{b.txt}`, the null-digest baseline produces a
spurious record `(a.txt, new)` that the row-less baseline does not. -/
theorem nullDigest_not_as_absent :
    compare_checksums (toDFOpt [("a.txt", none)])
        (compute_checksums [("b.txt", [])]) =
      .ok [⟨some "a.txt", none, none, "new"⟩,
           ⟨some "b.txt", none,
            some "e3b0c44298fc1c149afbf4c8996fb92427ae41e4649b934ca495991b7852b855",
            "new"⟩] ∧
    compare_checksums (DataFrame.mk ["filename", "sha256"] [])
        (compute_checksums [("b.txt", [])]) =
      .ok [⟨some "b.txt", none,
            some "e3b0c44298fc1c149afbf4c8996fb92427ae41e4649b934ca495991b7852b855",
            "new"⟩] ∧
    ([⟨some "a.txt", none, none, "new"⟩,
      ⟨some "b.txt", none,
       some "e3b0c44298fc1c149afbf4c8996fb92427ae41e4649b934ca495991b7852b855",
       "new"⟩] : List CompRow) ≠
      [⟨some "b.txt", none,
        some "e3b0c44298fc1c149afbf4c8996fb92427ae41e4649b934ca495991b7852b855",
        "new"⟩] :=
  ⟨rfl, rfl, by decide⟩

/-- Claim C10, amended:  Classification tests only digest nullity, so every
record with a null baseline digest cell has status `new`.  For a name bound
in the current set, a null-digest baseline row yields exactly the record an
absent name would yield; but for a name absent from the current set, the
null row still yields a `(name, new)` record whereas the truly absent name
yields none. -/
theorem nullDigest_row_classified_new (b : List FSRow)
    (n : List (String × String)) (hb : nodupKeys b) (hn : nodupKeys n)
    (name : String) (hnull : keyLookup b name = some none) :
    ∃ out out',
      compare_checksums (toDFOpt b) (toDF n) = .ok out ∧
      compare_checksums
        (toDFOpt (b.filter fun p => ¬ p.1 = name)) (toDF n) = .ok out' ∧
      (∀ r ∈ recordsFor out name, r.status = "new") ∧
      (∀ d, keyLookup n name = some d →
        recordsFor out name = [⟨some name, none, some d, "new"⟩] ∧
        recordsFor out' name = [⟨some name, none, some d, "new"⟩]) ∧
      (keyLookup n name = none →
        recordsFor out name = [⟨some name, none, none, "new"⟩] ∧
        recordsFor out' name = []) := by
  have hb' : nodupKeys (b.filter fun p => ¬ p.1 = name) :=
    hb.sublist ((List.filter_sublist b).map Prod.fst)
  have hnOpt : nodupKeys (n.map fun p => (p.1, some p.2)) :=
    nodupKeys_map_some n hn
  have hfs := keyLookup_filter_self b name
  have h1 := recordsFor_reconcileOpt b (n.map fun p => (p.1, some p.2))
    hb hnOpt name
  have h2 := recordsFor_reconcileOpt (b.filter fun p => ¬ p.1 = name)
    (n.map fun p => (p.1, some p.2)) hb' hnOpt name
  rw [hnull, keyLookup_map_some] at h1
  rw [hfs, keyLookup_map_some] at h2
  have hc1 : compare_checksums (toDFOpt b) (toDF n) =
      .ok (reconcileOpt b (n.map fun p => (p.1, some p.2))) := rfl
  have hc2 : compare_checksums
      (toDFOpt (b.filter fun p => ¬ p.1 = name)) (toDF n) =
      .ok (reconcileOpt (b.filter fun p => ¬ p.1 = name)
        (n.map fun p => (p.1, some p.2))) := rfl
  refine ⟨reconcileOpt b (n.map fun p => (p.1, some p.2)),
    reconcileOpt (b.filter fun p => ¬ p.1 = name)
      (n.map fun p => (p.1, some p.2)), hc1, hc2, ?_, ?_, ?_⟩
  · intro r hr
    cases hk : keyLookup n name with
    | none =>
        rw [hk] at h1
        simp only [Option.map_none'] at h1
        rw [h1, List.mem_singleton] at hr
        subst hr
        rfl
    | some d =>
        rw [hk] at h1
        simp only [Option.map_some'] at h1
        rw [h1, List.mem_singleton] at hr
        subst hr
        rfl
  · intro d hd
    rw [hd] at h1 h2
    simp only [Option.map_some'] at h1 h2
    exact ⟨h1, h2⟩
  · intro hd
    rw [hd] at h1 h2
    simp only [Option.map_none'] at h1 h2
    exact ⟨h1, h2⟩

/-- Closed instance of `nullDigest_row_classified_new` at a one-row
baseline with a null digest cell. -/
theorem nullDigest_row_classified_new_witness :
    nodupKeys [(("a.txt" : String), (none : Option String))] ∧
    nodupKeys [(("a.txt" : String), ("zz" : String))] ∧
    keyLookup [(("a.txt" : String), (none : Option String))] "a.txt" =
      some none ∧
    ∃ out out',
      compare_checksums (toDFOpt [("a.txt", none)])
        (toDF [("a.txt", "zz")]) = .ok out ∧
      compare_checksums
        (toDFOpt ([(("a.txt" : String), (none : Option String))].filter
          fun p => ¬ p.1 = "a.txt")) (toDF [("a.txt", "zz")]) = .ok out' ∧
      (∀ r ∈ recordsFor out "a.txt", r.status = "new") ∧
      (∀ d, keyLookup [(("a.txt" : String), ("zz" : String))] "a.txt" =
          some d →
        recordsFor out "a.txt" = [⟨some "a.txt", none, some d, "new"⟩] ∧
        recordsFor out' "a.txt" = [⟨some "a.txt", none, some d, "new"⟩]) ∧
      (keyLookup [(("a.txt" : String), ("zz" : String))] "a.txt" = none →
        recordsFor out "a.txt" = [⟨some "a.txt", none, none, "new"⟩] ∧
        recordsFor out' "a.txt" = []) :=
  ⟨by decide, by decide, by decide,
   nullDigest_row_classified_new [("a.txt", none)] [("a.txt", "zz")]
     (by decide) (by decide) "a.txt" (by decide)⟩


theorem mk_data (s : String) : String.mk s.data = s := by
  cases s
  rfl

/-- A field kept as text converts to its own text. -/
theorem keptAsText_convert (s : String) (h : keptAsText s = true) :
    convertField s = some s := by
  rw [keptAsText, Bool.and_eq_true, Bool.not_eq_true'] at h
  rw [convertField, if_neg]
  rw [h.1]
  simp

/-- Scanning plain text (no quote, comma or newline) accumulates it into
the current field. -/
theorem csvScan_text (s rest field : List Char) (row : List String)
    (acc : List (List String))
    (h : ∀ c ∈ s, ¬ c = '"' ∧ ¬ c = ',' ∧ ¬ c = '\n') :
    csvScan (s ++ rest) false field row acc =
      csvScan rest false (field ++ s) row acc := by
  induction s generalizing field with
  | nil => simp
  | cons c t ih =>
      obtain ⟨h1, h2, h3⟩ := h c (List.mem_cons_self c t)
      have ht : ∀ x ∈ t, ¬ x = '"' ∧ ¬ x = ',' ∧ ¬ x = '\n' :=
        fun x hx => h x (List.mem_cons_of_mem c hx)
      rw [List.cons_append, csvScan, if_neg h1, if_neg h2, if_neg h3,
        ih (field ++ [c]) ht, List.append_assoc]
      rfl

/-- Scanning an escaped field body followed by the closing quote (itself
followed by anything but a quote) accumulates the body and leaves the
quoted state. -/
theorem csvScan_quoted (s rest field : List Char) (row : List String)
    (acc : List (List String)) (hrest : rest.head? ≠ some '"') :
    csvScan (escapeQuotes s ++ '"' :: rest) true field row acc =
      csvScan rest false (field ++ s) row acc := by
  induction s generalizing field with
  | nil =>
      rw [escapeQuotes, List.nil_append, List.append_nil]
      cases rest with
      | nil => rfl
      | cons d t =>
          have hd : ¬ d = '"' := by
            intro hdq
            rw [List.head?_cons, hdq] at hrest
            exact hrest rfl
          simp [csvScan, hd]
  | cons c t ih =>
      by_cases hc : c = '"'
      · subst hc
        rw [escapeQuotes, if_pos rfl, List.cons_append, List.cons_append]
        rw [show csvScan ('"' :: '"' :: (escapeQuotes t ++ '"' :: rest))
            true field row acc =
          csvScan (escapeQuotes t ++ '"' :: rest) true (field ++ ['"'])
            row acc from rfl]
        rw [ih (field ++ ['"']), List.append_assoc]
        rfl
      · rw [escapeQuotes, if_neg hc, List.cons_append]
        have hstep : csvScan (c :: (escapeQuotes t ++ '"' :: rest)) true
            field row acc =
            csvScan (escapeQuotes t ++ '"' :: rest) true (field ++ [c])
              row acc := by
          simp [csvScan, hc]
        rw [hstep, ih (field ++ [c]), List.append_assoc]
        rfl

/-- Scanning one rendered field accumulates exactly the field's text. -/
theorem csvScan_field (s : String) (rest : List Char) (row : List String)
    (acc : List (List String)) (hrest : rest.head? ≠ some '"') :
    csvScan (renderField s.data ++ rest) false [] row acc =
      csvScan rest false s.data row acc := by
  rw [renderField]
  by_cases hq : needsQuote s.data = true
  · rw [if_pos hq, List.cons_append, List.append_assoc,
      List.singleton_append]
    have hopen : csvScan ('"' :: (escapeQuotes s.data ++ '"' :: rest))
        false [] row acc
        = csvScan (escapeQuotes s.data ++ '"' :: rest) true [] row acc := by
      simp [csvScan]
    rw [hopen, csvScan_quoted s.data rest [] row acc hrest]
    rfl
  · rw [if_neg hq]
    rw [Bool.not_eq_true] at hq
    have h : ∀ c ∈ s.data, ¬ c = '"' ∧ ¬ c = ',' ∧ ¬ c = '\n' := by
      intro c hc
      simp only [needsQuote, List.any_eq_false, decide_eq_true_eq] at hq
      have hcq := hq c hc
      push_neg at hcq
      exact ⟨hcq.2.1, hcq.1, hcq.2.2.1⟩
    exact csvScan_text s.data rest [] row acc h

/-- Scanning one rendered line finishes exactly one row holding the
line's fields. -/
theorem csvScan_line (fields : List String) (rest : List Char)
    (row : List String) (acc : List (List String)) (hne : fields ≠ []) :
    csvScan (renderLine fields ++ rest) false [] row acc =
      csvScan rest false [] [] (acc ++ [row ++ fields]) := by
  induction fields generalizing row with
  | nil => exact absurd rfl hne
  | cons f t ih =>
      cases t with
      | nil =>
          rw [show renderLine [f] = renderField f.data ++ ['\n'] from rfl,
            List.append_assoc, List.singleton_append]
          rw [csvScan_field f ('\n' :: rest) row acc (by simp)]
          have hnl : csvScan ('\n' :: rest) false f.data row acc
              = csvScan rest false [] []
                  (acc ++ [row ++ [String.mk f.data]]) := by
            simp [csvScan]
          rw [hnl, mk_data]
      | cons g t2 =>
          rw [show renderLine (f :: g :: t2) =
            renderField f.data ++ ',' :: renderLine (g :: t2) from rfl,
            List.append_assoc, List.cons_append]
          rw [csvScan_field f (',' :: (renderLine (g :: t2) ++ rest)) row
            acc (by simp)]
          have hcm : csvScan (',' :: (renderLine (g :: t2) ++ rest)) false
              f.data row acc
              = csvScan (renderLine (g :: t2) ++ rest) false []
                  (row ++ [String.mk f.data]) acc := by
            simp [csvScan]
          rw [hcm, mk_data, ih (row ++ [f]) (by simp)]
          rw [List.append_assoc]
          rfl

/-- Scanning a block of rendered lines finishes exactly those rows. -/
theorem csvScan_rows (rows : List (List String))
    (acc : List (List String)) (h : ∀ row ∈ rows, row ≠ []) :
    csvScan (rows.flatMap renderLine) false [] [] acc = acc ++ rows := by
  induction rows generalizing acc with
  | nil => simp [csvScan]
  | cons r rs ih =>
      rw [List.flatMap_cons,
        csvScan_line r _ [] acc (h r (List.mem_cons_self r rs)),
        ih _ (fun row hr => h row (List.mem_cons_of_mem r hr))]
      simp

/-- Tokenizing the serialised fingerprint table recovers the header row
and one field row per fingerprint. -/
theorem parseRows_to_csv (l : List (String × String)) :
    parseRows (to_csv (toDF l)).data =
      ["filename", "sha256"] :: l.map fun p => [p.1, p.2] := by
  have hflat : ∀ (m : List (String × String)),
      ((m.map fun p => (p.1, some p.2)).map toRowOpt).flatMap (fun r =>
        renderLine (["filename", "sha256"].map fun c =>
          cellText (getCell r c)))
      = (m.map fun p => [p.1, p.2]).flatMap renderLine := by
    intro m
    induction m with
    | nil => rfl
    | cons p t ih =>
        simp only [List.map_cons, List.map_nil, List.flatMap_cons] at ih ⊢
        rw [getCell_filename (p.1, some p.2), getCell_sha (p.1, some p.2),
          ih]
        rfl
  rw [show (to_csv (toDF l)).data =
      renderLine ["filename", "sha256"] ++
        ((l.map fun p => (p.1, some p.2)).map toRowOpt).flatMap (fun r =>
          renderLine (["filename", "sha256"].map fun c =>
            cellText (getCell r c))) from rfl]
  rw [hflat l, parseRows,
    csvScan_line ["filename", "sha256"] _ [] [] (by simp),
    csvScan_rows _ _ ?_]
  · simp
  · intro row hr
    obtain ⟨p, _, rfl⟩ := List.mem_map.mp hr
    simp

/-- Claim C9, amended:  Serialising a fingerprint set to the CSV
interchange format and parsing it back yields the identical baseline frame
— same names mapped to same digests — provided every name and digest is a
field the reader keeps as text (not one of pandas' NA tokens such as `NA`,
`nan` or the empty string, and not numeric-looking). -/
theorem csv_roundtrip (l : List (String × String))
    (h : ∀ p ∈ l, keptAsText p.1 ∧ keptAsText p.2) :
    read_csv (to_csv (toDF l)) = .ok (toDF l) := by
  have hp := parseRows_to_csv l
  unfold read_csv
  rw [hp]
  have hrows : ((l.map fun p => [p.1, p.2]).map fun fields =>
      (["filename", "sha256"].zip fields).map fun hf =>
        (hf.1, convertField hf.2))
      = (toDF l).rows := by
    rw [show (toDF l).rows =
        (l.map fun p => (p.1, some p.2)).map toRowOpt from rfl,
      List.map_map, List.map_map]
    refine List.map_congr_left fun p hpm => ?_
    obtain ⟨h1, h2⟩ := h p hpm
    simp [Function.comp, keptAsText_convert p.1 h1,
      keptAsText_convert p.2 h2, toRowOpt]
  show Except.ok (DataFrame.mk ["filename", "sha256"]
      ((l.map fun p => [p.1, p.2]).map fun fields =>
        (["filename", "sha256"].zip fields).map fun hf =>
          (hf.1, convertField hf.2)))
    = Except.ok (toDF l)
  rw [hrows]
  rfl

/-- Claim C9, counterexample:  A fingerprint set whose name is the pandas
NA token `NA` does not round-trip: the serialised text parses back with a
NaN name cell instead of the name string, so the parsed set is not the
original one. -/
theorem csv_na_roundtrip_fails :
    read_csv (to_csv (toDF [("NA",
      "e3b0c44298fc1c149afbf4c8996fb92427ae41e4649b934ca495991b7852b855")]))
      = .ok ⟨["filename", "sha256"],
        [[("filename", none), ("sha256", some
          "e3b0c44298fc1c149afbf4c8996fb92427ae41e4649b934ca495991b7852b855")]]⟩ ∧
    DataFrame.mk ["filename", "sha256"]
        [[("filename", none), ("sha256", some
          "e3b0c44298fc1c149afbf4c8996fb92427ae41e4649b934ca495991b7852b855")]]
      ≠ toDF [("NA",
        "e3b0c44298fc1c149afbf4c8996fb92427ae41e4649b934ca495991b7852b855")] :=
  ⟨rfl, by decide⟩

/-- Closed instance of `csv_roundtrip` at a one-entry set with plain-text
name and digest. -/
theorem csv_roundtrip_witness :
    (∀ p ∈ [(("a.txt" : String), ("deadbeef" : String))],
      keptAsText p.1 ∧ keptAsText p.2) ∧
    read_csv (to_csv (toDF [("a.txt", "deadbeef")])) =
      .ok (toDF [("a.txt", "deadbeef")]) :=
  ⟨by decide, csv_roundtrip [("a.txt", "deadbeef")] (by decide)⟩

end FileIntegrity
